import Mathlib

/-!
Verification of the cluster-removal ruin strategy and the solve-config
builder of the `vrp` repository, via a shallow embedding in Lean.

Costs are embedded as rationals (`ℚ`): the Rust code works with `f64`,
and every property checked here concerns control flow, ordering and
argmax selection, none of which depend on rounding.

Code that lives in this repository but outside the excerpted sources
(the `Point` geometry helper, the `Jobs` index, the `Random` trait, the
DBSCAN `create_clusters` algorithm, the solver `Builder`) is modelled
from the specification; each such definition carries a doc comment
starting with `Modelled from the spec:`.
-/

/-- Embeds `algorithms::geometry::Point` (`Point::new(x, y)`), with `f64`
coordinates replaced by rationals. -/
structure Point where
  x : ℚ
  y : ℚ
  deriving DecidableEq

/-- Embeds `Point::new`. -/
def Point.new (x y : ℚ) : Point := ⟨x, y⟩

/-- Modelled from the spec: `Point::distance_to_line` is not among the
excerpted sources.  The spec asks for the "perpendicular distance from the
straight line connecting the curve's first and last points"; this model
returns the squared perpendicular distance from `p` to the line through
`a` and `b`.  The square is a strictly monotone transform of the
(nonnegative) distance, so every comparison and every argmax over such
distances is unchanged, and the distance value itself is never returned
by the code under verification.  A degenerate line (`a = b`) yields `0`
(rational division by zero). -/
def Point.distance_to_line_sq (p a b : Point) : ℚ :=
  ((b.x - a.x) * (p.y - a.y) - (b.y - a.y) * (p.x - a.x)) ^ 2
    / ((b.x - a.x) ^ 2 + (b.y - a.y) ^ 2)

/-- Work units are identified by indices, as in the job collection. -/
abbrev Job := Nat

/-- Fleet cost profiles are identified by indices. -/
abbrev Profile := Nat

/-- Modelled from the spec: the fleet description seen by the clustering
code, reduced to the one field `cluster_removal.rs` reads,
`problem.fleet.profiles`. -/
structure Fleet where
  profiles : List Profile

/-- Modelled from the spec: the immutable problem model.  `jobs` stands for
`problem.jobs.all()` (with `problem.jobs.size() = jobs.length`), and
`neighbors profile job` stands for `problem.jobs.neighbors(profile, job, 0.)`:
the other work units paired with their cost-distance, sorted ascending by
cost ("nearest neighbor" order). -/
structure Problem where
  fleet : Fleet
  jobs : List Job
  neighbors : Profile → Job → List (Job × ℚ)

/-- Embeds the per-profile summand of `get_average_costs`:
`problem.jobs.neighbors(profile, &job, 0.).skip(nth_neighbor).next().map(|(_, cost)| *cost).unwrap_or(0.)`. -/
def nth_neighbor_cost (problem : Problem) (nth_neighbor : Nat) (profile : Profile) (job : Job) : ℚ :=
  match (problem.neighbors profile job).drop nth_neighbor with
  | [] => 0
  | (_, cost) :: _ => cost

/-- Embeds `get_average_costs`.  The accumulator starts as
`vec![0.; problem.jobs.size()]` and each profile pass adds, at index `idx`,
the nth-neighbor cost of the job at `idx`; since the accumulator always has
exactly one slot per job, the indexed `acc[idx] += …` update is the
`zipWith` of jobs against the accumulator.  Finally every slot is divided
by the number of profiles. -/
def get_average_costs (problem : Problem) (nth_neighbor : Nat) : List ℚ :=
  let costs := problem.fleet.profiles.foldl
    (fun acc profile =>
      List.zipWith (fun job a => a + nth_neighbor_cost problem nth_neighbor profile job)
        problem.jobs acc)
    (List.replicate problem.jobs.length 0)
  costs.map (fun cost => cost / (problem.fleet.profiles.length : ℚ))

/-- Embeds `get_max_curvature`.  The fold state is `(0., std::f64::MIN)`;
since every (squared) distance is nonnegative, the sentinel `f64::MIN`
(a negative number below every reachable distance) is modelled as `-1`.
`values.last().unwrap()` is total here because the nonempty case has
`first` as a default. -/
def get_max_curvature (values : List Point) : ℚ :=
  match values with
  | [] => 0
  | first :: _ =>
    let last := values.getLastD first
    (values.foldl
      (fun acc p =>
        let distance := p.distance_to_line_sq first last
        if acc.2 < distance then (p.y, distance) else acc)
      ((0 : ℚ), (-1 : ℚ))).1

/-- Inserts a value into an ascending list, keeping it ascending. -/
def insortAsc (a : ℚ) : List ℚ → List ℚ
  | [] => [a]
  | b :: l => if a ≤ b then a :: b :: l else b :: insortAsc a l

/-- A stable ascending sort (insertion sort), embedding
`costs.sort_by(|&a, &b| compare_floats(a, b))`: on rationals the ascending
order is total, so any ascending sort yields the same list of values. -/
def sortAsc : List ℚ → List ℚ
  | [] => []
  | a :: l => insortAsc a (sortAsc l)

/-- Embeds `estimate_epsilon`: sort the average nth-neighbor costs
ascending (`sort_by(compare_floats)`), enumerate them into curve points
`Point::new(idx, cost)`, and take the max-curvature approximation. -/
def estimate_epsilon (problem : Problem) (nth_neighbor : Nat) : ℚ :=
  let costs := sortAsc (get_average_costs problem nth_neighbor)
  let curve := costs.enum.map (fun ic => Point.new (ic.1 : ℚ) ic.2)
  get_max_curvature curve

/-- Rust's half-open range `a..b` as a list, `[a, a+1, …, b-1]` (empty when
`b ≤ a`, as in Rust). -/
def rustRange (a b : Nat) : List Nat := List.range' a (b - a)

/-- Rust `usize` addition under release semantics: the sum wraps modulo
`2 ^ 64`.  (A debug build panics on overflow instead; the wrapping result
below is the value the shipped binary computes.) -/
def usize_add (a b : Nat) : Nat := (a + b) % 2 ^ 64

/-- Embeds the `ClusterRemoval` struct of `cluster_removal.rs`. -/
structure ClusterRemoval where
  params : List (Nat × ℚ)
  min : Nat
  max : Nat
  threshold : ℚ

/-- Embeds `ClusterRemoval::new` (the `cluster_size` range is passed as a
`(start, end)` pair).  `min + 1` is `usize` addition and wraps at
`usize::MAX = 2 ^ 64 - 1`, so it is embedded as `usize_add min 1`;
`Nat.max`/`Nat.min` coincide with the `usize` operations. -/
def ClusterRemoval.new (problem : Problem) (cluster_size : Nat × Nat)
    (min_jobs max_jobs : Nat) (threshold : ℚ) : ClusterRemoval :=
  let min := Nat.max cluster_size.1 3
  let max := Nat.max (Nat.min cluster_size.2 problem.jobs.length) (usize_add min 1)
  { params := (rustRange min max).map
      (fun min_pts => (min_pts, estimate_epsilon problem (min_pts - 1)))
    min := min_jobs
    max := max_jobs
    threshold := threshold }

/-- Modelled from the spec: the injected `Random` trait object
(`utils::Random`) is not among the excerpted sources.  The spec requires
"uniform integer, uniform real, and shuffle operations"; a source is
modelled by the functions answering each `uniform_int(min, max)` /
`uniform_real(min, max)` call. -/
structure RandomSrc where
  uniform_int : Int → Int → Int
  uniform_real : ℚ → ℚ → ℚ

/-- The contract of a random source: each uniform draw over a nonempty
interval lands inside the closed interval requested. -/
def RandomSrc.WellBehaved (r : RandomSrc) : Prop :=
  (∀ lo hi : Int, lo ≤ hi → lo ≤ r.uniform_int lo hi ∧ r.uniform_int lo hi ≤ hi) ∧
  (∀ lo hi : ℚ, lo ≤ hi → lo ≤ r.uniform_real lo hi ∧ r.uniform_real lo hi ≤ hi)

/-- Rust's `as usize` cast applied to an `i32` value: sign-extend and
reinterpret as a 64-bit unsigned integer, i.e. reduce modulo `2 ^ 64`. -/
def as_usize (v : Int) : Nat := (v % (2 : Int) ^ 64).toNat

/-- The panics the embedded cluster-removal code can raise. -/
inductive Panic where
  /-- `unimplemented!()` in `ClusterRemoval::run`. -/
  | unimplemented
  /-- an out-of-bounds slice index, `profiles[…]`. -/
  | indexOutOfBounds
  /-- `Option::unwrap` on `None`, from `params.get(…).unwrap()`. -/
  | unwrapNone
  deriving DecidableEq

/-- Modelled from the spec: one growth pass of density-based expansion —
a cluster "is grown by iteratively absorbing points within epsilon of any
core point".  `core j` decides the core-point property and `nf j` lists
the points within epsilon of `j`; the fuel bounds the number of growth
rounds (the number of items suffices, as each round adds a point). -/
def clusterGrow (nf : Job → List Job) (core : Job → Bool) :
    Nat → List Job → List Job
  | 0, cluster => cluster
  | fuel + 1, cluster =>
    let ext := (((cluster.filter core).map nf).flatten.filter
      (fun j => !cluster.contains j)).dedup
    if ext.isEmpty then cluster else clusterGrow nf core fuel (cluster ++ ext)

/-- Modelled from the spec: `algorithms::dbscan::create_clusters` is not
among the excerpted sources.  Per the spec, a point is a core point when it
has "at least `min_points - 1` neighbors within epsilon"; items are visited
in order, each not-yet-clustered core point grows a new cluster by
density-based expansion, and grown clusters exclude already-clustered
points so that "clusters are disjoint at the end of one clustering pass";
non-core points not reached by any expansion remain unclustered.  The
neighborhood function `nf` already carries the epsilon bound, as the
`neighbor_fn` closure of `create_job_clusters` does. -/
def create_clusters (items : List Job) (min_items : Nat) (nf : Job → List Job) :
    List (List Job) :=
  let core : Job → Bool := fun j => decide (min_items - 1 ≤ (nf j).length)
  items.foldl
    (fun clusters job =>
      let assigned := clusters.flatten
      if assigned.contains job then clusters
      else if core job then
        clusters ++ [(clusterGrow nf core items.length [job]).filter
          (fun j => !assigned.contains j)]
      else clusters)
    []

/-- Embeds `create_job_clusters`.  The two slice accesses that can panic —
`profiles[random.uniform_int(0, profiles.len() as i32) as usize]` and
`params.get(random.uniform_int(range.0, range.1) as usize).unwrap()` — are
made explicit as `Except` errors; the chosen epsilon is jittered by
`uniform_real(eps * 0.9, eps * 1.1)` and the neighborhood closure keeps
neighbors while `cost < eps`. -/
def create_job_clusters (problem : Problem) (random : RandomSrc)
    (params : List (Nat × ℚ)) (range : Int × Int) :
    Except Panic (List (List Job)) :=
  match problem.fleet.profiles.get?
      (as_usize (random.uniform_int 0 (problem.fleet.profiles.length : Int))) with
  | none => .error .indexOutOfBounds
  | some profile =>
    match params.get? (as_usize (random.uniform_int range.1 range.2)) with
    | none => .error .unwrapNone
    | some (min_items, eps0) =>
      let eps := random.uniform_real (eps0 * (9 / 10)) (eps0 * (11 / 10))
      let nf : Job → List Job := fun job =>
        ((problem.neighbors profile job).takeWhile (fun jc => decide (jc.2 < eps))).map
          Prod.fst
      .ok (create_clusters problem.jobs min_items nf)

/-- Modelled from the spec: the process-global `rand::thread_rng()`
generator that `ClusterRemoval::run` passes to `shuffle`.  As global
mutable state it is embedded by explicit state passing: a raw stream of
draws plus the position of the next unconsumed draw. -/
structure HiddenRng where
  stream : Nat → Nat
  pos : Nat

/-- Swaps the elements at positions `i` and `j` of a list (a no-op when
either index is out of bounds). -/
def listSwap {α : Type} (l : List α) (i j : Nat) : List α :=
  match l.get? i, l.get? j with
  | some a, some b => (l.set i b).set j a
  | _, _ => l

/-- Modelled from the spec: the rand crate's `SliceRandom::shuffle`
(Fisher–Yates) — for `i` from `len - 1` down to `1`, draw one value from
the generator and swap position `i` with the drawn position in `0..=i`.
Each step consumes exactly one draw from the hidden stream. -/
def shuffleGo {α : Type} (h : HiddenRng) (l : List α) :
    List Nat → List α × HiddenRng
  | [] => (l, h)
  | i :: rest =>
    let j := h.stream h.pos % (i + 1)
    shuffleGo { h with pos := h.pos + 1 } (listSwap l i j) rest

/-- Modelled from the spec: `clusters.shuffle(&mut rand::thread_rng())`. -/
def shuffleList {α : Type} (h : HiddenRng) (l : List α) : List α × HiddenRng :=
  shuffleGo h l ((List.range' 1 (l.length - 1)).reverse)

/-- Modelled from the spec: the candidate solution carried by an
`InsertionContext` — "a mapping from work units to routes/positions plus a
set of unassigned work units", reduced to the two work-unit sets. -/
structure SolutionSummary where
  assigned : List Job
  unassigned : List Job

/-- Modelled from the spec: the parts of
`construction::heuristics::InsertionContext` that `ClusterRemoval::run`
touches — the shared problem, the injected random source, and the candidate
solution. -/
structure InsertionContext where
  problem : Problem
  random : RandomSrc
  solution : SolutionSummary

/-- Modelled from the spec: `solver::RefinementContext`; `run` ignores it
(`_: &mut RefinementContext`), so only a generation counter is kept. -/
structure RefinementContext where
  generation : Nat

/-- Embeds `ClusterRemoval::run` (`impl Ruin for ClusterRemoval`).  The
hidden `rand::thread_rng()` state is passed and returned explicitly; the
body clusters the jobs, shuffles the cluster list with the hidden
generator, and then hits `unimplemented!()`.  A panic inside
`create_job_clusters` propagates. -/
def ClusterRemoval.run (self : ClusterRemoval) (_rc : RefinementContext)
    (insertion_ctx : InsertionContext) (thread_rng : HiddenRng) :
    Except Panic InsertionContext × HiddenRng :=
  match create_job_clusters insertion_ctx.problem insertion_ctx.random
      self.params ((self.min : Int), (self.max : Int)) with
  | .error e => (.error e, thread_rng)
  | .ok clusters =>
    let shuffled := shuffleList thread_rng clusters
    (.error .unimplemented, shuffled.2)

/-! ## The epsilon-estimation procedure as the specification words it

These definitions follow §4.4 of the spec sentence by sentence; they are
the refinement target that claim C3 compares the source embedding
against. -/

/-- Modelled from the spec: "compute for every work unit the cost-distance
to its `(min_pts - 1)`-th nearest neighbor (averaged across all fleet cost
profiles)" — the `(min_pts - 1)`-th nearest neighbor is the entry at
position `min_pts - 1` of the ascending neighbor list (position 0 being the
nearest), a work unit without such a neighbor under some profile
contributing distance 0 for that profile. -/
def specAverageKDistance (problem : Problem) (min_pts : Nat) : List ℚ :=
  problem.jobs.map (fun job =>
    (problem.fleet.profiles.map
      (fun profile => nth_neighbor_cost problem (min_pts - 1) profile job)).sum
      / (problem.fleet.profiles.length : ℚ))

/-- Modelled from the spec: "estimate the 'knee' by finding the point of
maximum perpendicular distance from the straight line connecting the
curve's first and last points — this point's y-value is the epsilon
estimate", "returns 0 for an empty input".  The first curve point attaining
the maximum distance is taken when several do. -/
def specKneeY (curve : List Point) : ℚ :=
  match curve with
  | [] => 0
  | first :: _ =>
    let last := curve.getLastD first
    match curve.find? (fun p => decide (∀ q ∈ curve,
        q.distance_to_line_sq first last ≤ p.distance_to_line_sq first last)) with
    | some p => p.y
    | none => 0

/-- Modelled from the spec: the full epsilon estimation procedure of §4.4 —
average k-distances, "sort these distances ascending to form a k-distance
curve", then the knee's y-value. -/
def specEstimateEpsilon (problem : Problem) (min_pts : Nat) : ℚ :=
  let distances := sortAsc (specAverageKDistance problem min_pts)
  specKneeY (distances.enum.map (fun ic => Point.new (ic.1 : ℚ) ic.2))

/-! ## The solve-config embedding (`vrp-cli/src/extensions/solve/config.rs`) -/

/-- Embeds the `RecreateMethod` config enum. -/
inductive RecreateMethod where
  | cheapest (weight : Nat)
  | regret (weight start stop : Nat)
  | blinks (weight : Nat)
  | gaps (weight min : Nat)
  | nearest (weight : Nat)

/-- Embeds the `RuinMethod` config enum. -/
inductive RuinMethod where
  | adjustedString (probability : ℚ) (lmax cavg : Nat) (alpha : ℚ)
  | neighbour (probability : ℚ) (min max : Nat) (threshold : ℚ)
  | randomJob (probability : ℚ) (min max : Nat) (threshold : ℚ)
  | randomRoute (probability : ℚ) (min max : Nat) (threshold : ℚ)
  | worstJob (probability : ℚ) (min max : Nat) (threshold : ℚ) (skip : Nat)
  | cluster (probability : ℚ) (min max : Nat) (threshold : ℚ) (cmin cmax : Nat)

/-- Embeds `ConfigRuinGroup`. -/
structure ConfigRuinGroup where
  methods : List RuinMethod
  weight : Nat

/-- Embeds the `MutationConfig` enum (one variant, `ruin-recreate`). -/
inductive MutationConfig where
  | ruinRecreate (ruins : List ConfigRuinGroup) (recreates : List RecreateMethod)

/-- Embeds `PopulationConfig`. -/
structure PopulationConfig where
  initial_methods : Option (List RecreateMethod)
  initial_size : Option Nat
  population_size : Option Nat
  offspring_size : Option Nat
  elite_size : Option Nat

/-- Embeds `VariationConfig`. -/
structure VariationConfig where
  sample : Nat
  cv : ℚ

/-- Embeds `TerminationConfig`. -/
structure TerminationConfig where
  max_time : Option Nat
  max_generations : Option Nat
  variation : Option VariationConfig

/-- Embeds `LoggingConfig`. -/
structure LoggingConfig where
  enabled : Bool

/-- Embeds `Config`. -/
structure Config where
  population : Option PopulationConfig
  mutation : Option MutationConfig
  termination : Option TerminationConfig
  logging : Option LoggingConfig

/-- The concrete recreate objects produced by `create_recreate_method`
(`Box<dyn Recreate>` values). -/
inductive Recreate where
  | withCheapest
  | withRegret (start stop : Nat)
  | withBlinks
  | withGaps (min : Nat)
  | withNearestNeighbor

/-- Embeds `JobRemovalLimit` (its `new` constructor). -/
structure JobRemovalLimit where
  min : Nat
  max : Nat
  threshold : ℚ

/-- Embeds `JobRemovalLimit::new`. -/
def JobRemovalLimit.new (min max : Nat) (threshold : ℚ) : JobRemovalLimit :=
  ⟨min, max, threshold⟩

/-- The concrete ruin objects produced by `create_ruin_method`
(`Arc<dyn Ruin>` values). -/
inductive RuinObj where
  | adjustedStringRemoval (lmax cavg : Nat) (alpha : ℚ)
  | neighbourRemoval (limit : JobRemovalLimit)
  | randomJobRemoval (limit : JobRemovalLimit)
  | randomRouteRemoval (min max : Nat) (threshold : ℚ)
  | worstJobRemoval (skip : Nat) (limit : JobRemovalLimit)
  | clusterRemoval (cr : ClusterRemoval)

/-- The mutation object built by `configure_from_mutation`:
`RuinAndRecreateMutation::new(CompositeRecreate::new(…), CompositeRuin::new(…))`. -/
inductive Mutation where
  | ruinAndRecreate (recreates : List (Recreate × Nat))
      (ruins : List (List (RuinObj × ℚ) × Nat))

/-- Modelled from the spec: the injectable logging sink ("an injectable
sink invoked with progress messages"); a logger is modelled by the list of
messages it emits for a given progress message. -/
abbrev Logger := String → List String

/-- Modelled from the spec: the default logger — "logging enabled by
default" — emits the message it is given. -/
def defaultLogger : Logger := fun s => [s]

/-- The no-op sink `Arc::new(|_| {})` installed when logging is disabled. -/
def noopLogger : Logger := fun _ => []

/-- Modelled from the spec: `vrp_core::solver::Builder` is not among the
excerpted sources.  Per §6 the core "exposes a builder-style configuration
API accepting these values with explicit setters; unset values fall back to
documented defaults (e.g., logging enabled by default)": each setter
replaces one field, every optional field starts unset, and the logger
starts as the default logger. -/
structure Builder where
  problem : Problem
  logger : Logger := defaultLogger
  initial_methods : Option (List (Recreate × Nat)) := none
  initial_size : Option Nat := none
  population_size : Option Nat := none
  elite_size : Option Nat := none
  offspring_size : Option Nat := none
  mutation : Option Mutation := none
  max_time : Option Nat := none
  max_generations : Option Nat := none
  cost_variation : Option (Nat × ℚ) := none

/-- Embeds `Builder::new(problem)`. -/
def Builder.new (problem : Problem) : Builder := { problem := problem }

/-- Modelled from the spec: the `with_logger` setter. -/
def Builder.with_logger (b : Builder) (l : Logger) : Builder :=
  { b with logger := l }

/-- Modelled from the spec: the `with_initial_methods` setter. -/
def Builder.with_initial_methods (b : Builder) (m : List (Recreate × Nat)) : Builder :=
  { b with initial_methods := some m }

/-- Modelled from the spec: the `with_initial_size` setter. -/
def Builder.with_initial_size (b : Builder) (n : Nat) : Builder :=
  { b with initial_size := some n }

/-- Modelled from the spec: the `with_population_size` setter. -/
def Builder.with_population_size (b : Builder) (n : Nat) : Builder :=
  { b with population_size := some n }

/-- Modelled from the spec: the `with_elite_size` setter. -/
def Builder.with_elite_size (b : Builder) (n : Nat) : Builder :=
  { b with elite_size := some n }

/-- Modelled from the spec: the `with_offspring_size` setter. -/
def Builder.with_offspring_size (b : Builder) (n : Nat) : Builder :=
  { b with offspring_size := some n }

/-- Modelled from the spec: the `with_mutation` setter. -/
def Builder.with_mutation (b : Builder) (m : Mutation) : Builder :=
  { b with mutation := some m }

/-- Modelled from the spec: the `with_max_time` setter (the source passes
the optional value through). -/
def Builder.with_max_time (b : Builder) (t : Option Nat) : Builder :=
  { b with max_time := t }

/-- Modelled from the spec: the `with_max_generations` setter (optional
value passed through). -/
def Builder.with_max_generations (b : Builder) (g : Option Nat) : Builder :=
  { b with max_generations := g }

/-- Modelled from the spec: the `with_cost_variation` setter (optional
value passed through). -/
def Builder.with_cost_variation (b : Builder) (v : Option (Nat × ℚ)) : Builder :=
  { b with cost_variation := v }

/-- Embeds `create_recreate_method`. -/
def create_recreate_method (method : RecreateMethod) : Recreate × Nat :=
  match method with
  | .cheapest weight => (.withCheapest, weight)
  | .regret weight start stop => (.withRegret start stop, weight)
  | .blinks weight => (.withBlinks, weight)
  | .gaps weight min => (.withGaps min, weight)
  | .nearest weight => (.withNearestNeighbor, weight)

/-- Embeds `create_ruin_method`.  The `Cluster` arm of `config.rs` calls
`ClusterRemoval::new(problem, cmin..cmax, JobRemovalLimit::new(min, max, threshold))`;
`cluster_removal.rs` declares `new` with the limit unbundled, so the
components are passed through directly. -/
def create_ruin_method (problem : Problem) (method : RuinMethod) : RuinObj × ℚ :=
  match method with
  | .adjustedString probability lmax cavg alpha =>
    (.adjustedStringRemoval lmax cavg alpha, probability)
  | .neighbour probability min max threshold =>
    (.neighbourRemoval (JobRemovalLimit.new min max threshold), probability)
  | .randomJob probability min max threshold =>
    (.randomJobRemoval (JobRemovalLimit.new min max threshold), probability)
  | .randomRoute probability min max threshold =>
    (.randomRouteRemoval min max threshold, probability)
  | .worstJob probability min max threshold worst_skip =>
    (.worstJobRemoval worst_skip (JobRemovalLimit.new min max threshold), probability)
  | .cluster probability min max threshold cmin cmax =>
    (.clusterRemoval (ClusterRemoval.new problem (cmin, cmax) min max threshold),
      probability)

/-- Embeds `create_ruin_group`. -/
def create_ruin_group (problem : Problem) (group : ConfigRuinGroup) :
    List (RuinObj × ℚ) × Nat :=
  (group.methods.map (create_ruin_method problem), group.weight)

/-- Embeds `configure_from_population`: each present field is applied to
the builder with its setter, in source order. -/
def configure_from_population (builder : Builder)
    (population_config : Option PopulationConfig) : Builder :=
  match population_config with
  | none => builder
  | some config =>
    let builder := match config.initial_methods with
      | some methods => builder.with_initial_methods (methods.map create_recreate_method)
      | none => builder
    let builder := match config.initial_size with
      | some n => builder.with_initial_size n
      | none => builder
    let builder := match config.population_size with
      | some n => builder.with_population_size n
      | none => builder
    let builder := match config.elite_size with
      | some n => builder.with_elite_size n
      | none => builder
    let builder := match config.offspring_size with
      | some n => builder.with_offspring_size n
      | none => builder
    builder

/-- Embeds `configure_from_mutation`. -/
def configure_from_mutation (builder : Builder)
    (mutation_config : Option MutationConfig) : Builder :=
  match mutation_config with
  | none => builder
  | some (.ruinRecreate ruins recreates) =>
    builder.with_mutation (.ruinAndRecreate
      (recreates.map create_recreate_method)
      (ruins.map (create_ruin_group builder.problem)))

/-- Embeds `configure_from_termination`. -/
def configure_from_termination (builder : Builder)
    (termination_config : Option TerminationConfig) : Builder :=
  match termination_config with
  | none => builder
  | some config =>
    let builder := builder.with_max_time config.max_time
    let builder := builder.with_max_generations config.max_generations
    let builder := builder.with_cost_variation
      (config.variation.map (fun v => (v.sample, v.cv)))
    builder

/-- Embeds `configure_from_logging`:
`logging_config.as_ref().map(|l| l.enabled).unwrap_or(true)`, and the no-op
sink is installed only when that value is `false`. -/
def configure_from_logging (builder : Builder)
    (logging_config : Option LoggingConfig) : Builder :=
  let is_enabled := (logging_config.map LoggingConfig.enabled).getD true
  if !is_enabled then builder.with_logger noopLogger else builder

/-- Embeds `read_config`.  `serde_json::from_reader` is external; the
reader is represented by its deserialization outcome, an error case
carrying serde's message. -/
def read_config (reader : Except String Config) : Except String Config :=
  match reader with
  | .ok config => .ok config
  | .error err => .error ("cannot deserialize config: " ++ err)

/-- Embeds `create_builder_from_config`: compose the four `configure_from_*`
passes over a fresh builder and return `Ok`. -/
def create_builder_from_config (problem : Problem) (config : Config) :
    Except String Builder :=
  let builder := Builder.new problem
  let builder := configure_from_logging builder config.logging
  let builder := configure_from_population builder config.population
  let builder := configure_from_mutation builder config.mutation
  let builder := configure_from_termination builder config.termination
  .ok builder

/-- Embeds `create_builder_from_config_file`:
`read_config(reader).and_then(|config| create_builder_from_config(problem, &config))`. -/
def create_builder_from_config_file (problem : Problem)
    (reader : Except String Config) : Except String Builder :=
  match read_config reader with
  | .ok config => create_builder_from_config problem config
  | .error err => .error err

/-- `Ok`-ness of an `Except` result. -/
def exceptIsOk {ε α : Type} : Except ε α → Bool
  | .ok _ => true
  | .error _ => false

/-! ## Concrete instances used by witnesses and counterexamples -/

/-- Neighbor lists of a ten-job instance: two tight groups `{0,1,2,3}` and
`{4,5,6,7}` with in-group cost 1, plus two isolated jobs 8 and 9; every
other pair costs 100.  Lists are ascending by cost. -/
def exNeighbors (j : Job) : List (Job × ℚ) :=
  if j < 4 then
    ((List.range 4).filter (fun k => k ≠ j)).map (fun k => (k, (1 : ℚ)))
      ++ (List.range' 4 6).map (fun k => (k, (100 : ℚ)))
  else if j < 8 then
    ((List.range' 4 4).filter (fun k => k ≠ j)).map (fun k => (k, (1 : ℚ)))
      ++ ((List.range 4) ++ [8, 9]).map (fun k => (k, (100 : ℚ)))
  else
    ((List.range 10).filter (fun k => k ≠ j)).map (fun k => (k, (100 : ℚ)))

/-- A ten-job, one-profile problem instance. -/
def exProblem : Problem :=
  { fleet := ⟨[0]⟩
    jobs := List.range 10
    neighbors := fun _ j => exNeighbors j }

/-- A problem with no jobs (and one profile). -/
def emptyProblem : Problem :=
  { fleet := ⟨[0]⟩
    jobs := []
    neighbors := fun _ _ => [] }

/-- A well-behaved random source that always answers with the lower bound
of the requested interval. -/
def lowRandom : RandomSrc :=
  { uniform_int := fun lo _ => lo
    uniform_real := fun lo _ => lo }

/-- A well-behaved random source that answers integer draws with the lower
bound and real draws with the upper bound. -/
def lowHighRandom : RandomSrc :=
  { uniform_int := fun lo _ => lo
    uniform_real := fun _ hi => hi }

set_option maxRecDepth 20000 in
/-- On the ten-job instance the knee estimate for `min_pts = 3` is the
in-group distance 1; with the jitter draw answered at the upper bound the
clustering step recovers the two four-job groups, leaving jobs 8 and 9
unclustered. -/
lemma create_job_clusters_exProblem_two_clusters :
    create_job_clusters exProblem lowHighRandom
      (ClusterRemoval.new exProblem (3, 5) 0 16 (1 / 10)).params (0, 16)
      = .ok [[0, 1, 2, 3], [4, 5, 6, 7]] := by
  with_unfolding_all rfl

/-! ## Helper lemmas -/

lemma zipWith_comp {α β : Type} (f g : α → β → β) :
    ∀ (l : List α) (l2 : List β),
      List.zipWith f l (List.zipWith g l l2) = List.zipWith (fun a b => f a (g a b)) l l2
  | [], _ => rfl
  | _ :: _, [] => rfl
  | a :: l, b :: l2 => by
    simp only [List.zipWith_cons_cons]
    exact congrArg _ (zipWith_comp f g l l2)

lemma zipWith_replicate_len {α β γ : Type} (f : α → β → γ) (z : β) :
    ∀ l : List α, List.zipWith f l (List.replicate l.length z) = l.map (fun a => f a z)
  | [] => rfl
  | a :: l => by
    simp only [List.length_cons, List.replicate_succ, List.zipWith_cons_cons, List.map_cons]
    exact congrArg _ (zipWith_replicate_len f z l)

/-- The profile-accumulation fold of `get_average_costs` computes, slot by
slot, the sum over profiles of the per-job cost. -/
lemma foldl_zipWith_sum (c : Profile → Job → ℚ) (jobs : List Job) :
    ∀ (profs : List Profile) (acc : List ℚ), acc.length = jobs.length →
      profs.foldl (fun acc profile => List.zipWith (fun j a => a + c profile j) jobs acc) acc
        = List.zipWith (fun j a => a + (profs.map (fun profile => c profile j)).sum) jobs acc
  | [], acc, h => by
    have h2 : List.zipWith (fun (j : Job) (a : ℚ) => a + (List.map (fun profile => c profile j) []).sum)
        jobs acc = List.zipWith (fun _ a => a) jobs acc := by
      simp
    rw [List.foldl_nil, h2]
    clear h2
    induction jobs generalizing acc with
    | nil => cases acc with
      | nil => rfl
      | cons b l2 => simp at h
    | cons a l ih => cases acc with
      | nil => simp at h
      | cons b l2 =>
        simp only [List.zipWith_cons_cons]
        simp only [List.length_cons, Nat.succ.injEq] at h
        exact congrArg _ (ih l2 h)
  | profile :: profs, acc, h => by
    rw [List.foldl_cons,
      foldl_zipWith_sum c jobs profs _
        (by rw [List.length_zipWith, h, Nat.min_self]),
      zipWith_comp]
    have : (fun (a : Job) (b : ℚ) =>
        (fun (j : Job) (a : ℚ) => a + (profs.map (fun profile => c profile j)).sum) a
          ((fun (j : Job) (a : ℚ) => a + c profile j) a b))
        = fun (j : Job) (a : ℚ) =>
          a + ((profile :: profs).map (fun profile => c profile j)).sum := by
      funext j a
      simp [add_assoc]
    rw [this]

/-- `get_average_costs` in closed form: one entry per job, each the
profile-averaged nth-neighbor cost. -/
lemma get_average_costs_eq (problem : Problem) (nth_neighbor : Nat) :
    get_average_costs problem nth_neighbor
      = problem.jobs.map (fun job =>
          (problem.fleet.profiles.map
            (fun profile => nth_neighbor_cost problem nth_neighbor profile job)).sum
            / (problem.fleet.profiles.length : ℚ)) := by
  unfold get_average_costs
  rw [foldl_zipWith_sum _ _ _ _ (List.length_replicate _ _),
    zipWith_replicate_len, List.map_map]
  congr 1
  funext job
  simp

/-- `0 ≤` every squared perpendicular distance. -/
lemma distance_to_line_sq_nonneg (p a b : Point) : 0 ≤ p.distance_to_line_sq a b := by
  unfold Point.distance_to_line_sq
  exact div_nonneg (sq_nonneg _) (add_nonneg (sq_nonneg _) (sq_nonneg _))

lemma findCongr {α : Type} (p q : α → Bool) :
    ∀ l : List α, (∀ x ∈ l, p x = q x) → l.find? p = l.find? q
  | [], _ => rfl
  | a :: l, h => by
    have ha : p a = q a := h a (List.mem_cons_self a l)
    have hl := findCongr p q l (fun x hx => h x (List.mem_cons_of_mem a hx))
    cases hqa : q a with
    | true => rw [List.find?_cons_of_pos _ (ha.trans hqa), List.find?_cons_of_pos _ hqa]
    | false => rw [List.find?_cons_of_neg _ (by simp [ha, hqa]),
        List.find?_cons_of_neg _ (by simp [hqa]), hl]

/-- If every value of `f` on `l` is at most the running maximum, the
max-curvature fold leaves its accumulator unchanged. -/
lemma foldStep_all_le (f : Point → ℚ) :
    ∀ (l : List Point) (acc : ℚ × ℚ), (∀ p ∈ l, f p ≤ acc.2) →
      l.foldl (fun acc p => if acc.2 < f p then (p.y, f p) else acc) acc = acc
  | [], _, _ => rfl
  | p :: l, acc, h => by
    rw [List.foldl_cons, if_neg (not_lt.mpr (h p (List.mem_cons_self p l)))]
    exact foldStep_all_le f l acc (fun q hq => h q (List.mem_cons_of_mem p hq))

/-- The max-curvature fold selects the first element attaining the maximum
of `f` among those exceeding the starting accumulator. -/
lemma foldStep_eq_find (f : Point → ℚ) :
    ∀ (l : List Point) (acc : ℚ × ℚ),
      l.foldl (fun acc p => if acc.2 < f p then (p.y, f p) else acc) acc
        = match l.find? (fun p => decide (acc.2 < f p ∧ ∀ q ∈ l, f q ≤ f p)) with
          | some p => (p.y, f p)
          | none => acc
  | [], acc => rfl
  | p :: l, acc => by
    rw [List.foldl_cons]
    by_cases hp : acc.2 < f p
    · rw [if_pos hp]
      by_cases hmax : ∀ q ∈ l, f q ≤ f p
      · rw [foldStep_all_le f l (p.y, f p) hmax,
          List.find?_cons_of_pos _ (by
            simp only [decide_eq_true_eq]
            exact ⟨hp, List.forall_mem_cons.mpr ⟨le_refl _, hmax⟩⟩)]
      · push_neg at hmax
        obtain ⟨q0, hq0, hq0lt⟩ := hmax
        rw [foldStep_eq_find f l (p.y, f p),
          List.find?_cons_of_neg _ (by
            simp only [decide_eq_true_eq, not_and, not_forall]
            exact fun _ => ⟨q0, List.mem_cons_of_mem p hq0, not_le.mpr hq0lt⟩),
          findCongr _ (fun r => decide (acc.2 < f r ∧ ∀ q ∈ p :: l, f q ≤ f r)) l (by
            intro r hr
            simp only [decide_eq_decide]
            rcases le_or_lt (f r) (f p) with hle | hlt
            · refine iff_of_false ?_ ?_
              · rintro ⟨h2, _⟩
                exact absurd h2 (not_lt.mpr hle)
              · rintro ⟨_, h3⟩
                exact absurd ((List.forall_mem_cons.mp h3).2 q0 hq0)
                  (not_le.mpr (lt_of_le_of_lt hle hq0lt))
            · constructor
              · rintro ⟨h2, h3⟩
                exact ⟨lt_trans hp h2,
                  List.forall_mem_cons.mpr ⟨le_of_lt hlt, h3⟩⟩
              · rintro ⟨_, h3⟩
                exact ⟨hlt, (List.forall_mem_cons.mp h3).2⟩)]
        obtain ⟨m, hm0⟩ : ∃ m, l.argmax f = some m :=
          Option.ne_none_iff_exists'.mp
            (fun h => List.ne_nil_of_mem hq0 (List.argmax_eq_none.mp h))
        have hm : m ∈ l.argmax f := Option.mem_def.mpr hm0
        cases hfind : l.find? (fun r => decide (acc.2 < f r ∧ ∀ q ∈ p :: l, f q ≤ f r)) with
        | some r => rfl
        | none =>
          exfalso
          rw [List.find?_eq_none] at hfind
          refine hfind m (List.argmax_mem hm) ?_
          have hq0m : f q0 ≤ f m := List.le_of_mem_argmax hq0 hm
          simp only [decide_eq_true_eq]
          refine ⟨lt_trans hp (lt_of_lt_of_le hq0lt hq0m), ?_⟩
          refine List.forall_mem_cons.mpr ⟨le_of_lt (lt_of_lt_of_le hq0lt hq0m), ?_⟩
          exact fun q hq => List.le_of_mem_argmax hq hm
    · rw [if_neg hp]
      rw [foldStep_eq_find f l acc,
        List.find?_cons_of_neg _ (by
          simp only [decide_eq_true_eq, not_and]
          exact fun h => absurd h hp),
        findCongr _ (fun r => decide (acc.2 < f r ∧ ∀ q ∈ p :: l, f q ≤ f r)) l (by
          intro r hr
          have : (acc.2 < f r ∧ ∀ q ∈ l, f q ≤ f r)
              ↔ (acc.2 < f r ∧ ∀ q ∈ p :: l, f q ≤ f r) := by
            constructor
            · rintro ⟨h2, h3⟩
              refine ⟨h2, List.forall_mem_cons.mpr ⟨?_, h3⟩⟩
              exact le_trans (not_lt.mp hp) (le_of_lt h2)
            · rintro ⟨h2, h3⟩
              exact ⟨h2, (List.forall_mem_cons.mp h3).2⟩
          simp only [decide_eq_decide]
          exact this)]

/-- The source max-curvature fold agrees with the specification's
"first point of maximum perpendicular distance" reading on every curve. -/
lemma get_max_curvature_eq_specKneeY (curve : List Point) :
    get_max_curvature curve = specKneeY curve := by
  cases curve with
  | nil => rfl
  | cons first rest =>
    unfold get_max_curvature specKneeY
    simp only
    rw [foldStep_eq_find (fun p =>
      p.distance_to_line_sq first ((first :: rest).getLastD first)) (first :: rest) (0, -1)]
    rw [findCongr _ (fun p => decide (∀ q ∈ first :: rest,
        q.distance_to_line_sq first ((first :: rest).getLastD first)
          ≤ p.distance_to_line_sq first ((first :: rest).getLastD first))) _ (by
      intro p hp
      simp only [decide_eq_decide]
      constructor
      · rintro ⟨_, h⟩
        exact h
      · intro h
        exact ⟨lt_of_lt_of_le (by norm_num) (distance_to_line_sq_nonneg p _ _), h⟩)]
    cases (first :: rest).find? (fun p => decide (∀ q ∈ first :: rest,
        q.distance_to_line_sq first ((first :: rest).getLastD first)
          ≤ p.distance_to_line_sq first ((first :: rest).getLastD first))) with
    | none => rfl
    | some p => rfl

/-- The source estimation with `nth_neighbor = min_pts - 1` computes the
specification's procedure for `min_pts`. -/
lemma estimate_epsilon_eq_spec (problem : Problem) (min_pts : Nat) :
    estimate_epsilon problem (min_pts - 1) = specEstimateEpsilon problem min_pts := by
  unfold estimate_epsilon specEstimateEpsilon specAverageKDistance
  rw [get_average_costs_eq, get_max_curvature_eq_specKneeY]

/-! ## Claims -/

/-- **C1** — the claim says `ClusterRemoval::run` returns a candidate with
the same total work-unit set; in fact `run` never returns a candidate at
all: after clustering and shuffling, it unconditionally panics
(`unimplemented!()`), and a failed table lookup inside
`create_job_clusters` panics even earlier.  This theorem evaluates the
embedded code on every input: the result is always a panic, never a
candidate. -/
theorem clusterRemoval_run_always_panics :
    ∀ (self : ClusterRemoval) (rc : RefinementContext)
      (insertion_ctx : InsertionContext) (thread_rng : HiddenRng),
      ∃ e : Panic,
        (ClusterRemoval.run self rc insertion_ctx thread_rng).1 = .error e := by
  intro self rc insertion_ctx thread_rng
  unfold ClusterRemoval.run
  split
  · exact ⟨_, rfl⟩
  · exact ⟨.unimplemented, rfl⟩

lemma lowRandom_wellBehaved : RandomSrc.WellBehaved lowRandom :=
  ⟨fun _ _ h => ⟨le_refl _, h⟩, fun _ _ h => ⟨le_refl _, h⟩⟩

lemma lowHighRandom_wellBehaved : RandomSrc.WellBehaved lowHighRandom :=
  ⟨fun _ _ h => ⟨le_refl _, h⟩, fun _ _ h => ⟨h, le_refl _⟩⟩

/-- **C2** — the claim says the randomly drawn params-table index is always
within the table's bounds, so `params.get(…).unwrap()` never panics.  It is
not: `run` passes `(self.min, self.max)` — the job-removal limits — as the
index range, which is unrelated to the table length.  Here `new` is called
with `cluster_size = 3..5` (a two-entry table) and removal limits
`min = 5, max = 9`; the well-behaved source `lowRandom` (every draw is the
lower interval bound, see `lowRandom_wellBehaved`) draws index 5, and the
embedded run evaluates to the unwrap panic. -/
theorem clusterRemoval_run_params_unwrap_panics :
    (ClusterRemoval.run (ClusterRemoval.new exProblem (3, 5) 5 9 (1 / 10)) ⟨0⟩
      ⟨exProblem, lowRandom, ⟨[], []⟩⟩ ⟨fun _ => 0, 0⟩).1
      = .error .unwrapNone := by
  with_unfolding_all rfl

/-- **C3** — for every problem and construction arguments, the epsilon
paired with `min_pts` in the params table built by `ClusterRemoval::new`
equals the result of the specification's procedure: average distance to the
`(min_pts - 1)`-th nearest neighbor per job, sorted ascending into a
k-distance curve, knee at maximum perpendicular distance from the line
through the curve's first and last points, returning that point's
y-value. -/
theorem clusterRemoval_new_epsilon_matches_spec
    (problem : Problem) (cluster_size : Nat × Nat) (min_jobs max_jobs : Nat)
    (threshold : ℚ) (pair : Nat × ℚ)
    (hmem : pair ∈ (ClusterRemoval.new problem cluster_size min_jobs max_jobs
      threshold).params) :
    pair.2 = specEstimateEpsilon problem pair.1 := by
  simp only [ClusterRemoval.new, List.mem_map] at hmem
  obtain ⟨min_pts, _, rfl⟩ := hmem
  exact estimate_epsilon_eq_spec problem min_pts

set_option maxRecDepth 20000 in
/-- Witness for C3: in the ten-job instance, the table built from
`cluster_size = 3..5` contains the pair `(3, 1)`, and `1` is exactly the
spec-procedure estimate for `min_pts = 3`. -/
theorem clusterRemoval_new_epsilon_matches_spec_witness :
    ((3 : Nat), (1 : ℚ)).2 = specEstimateEpsilon exProblem ((3 : Nat), (1 : ℚ)).1 :=
  clusterRemoval_new_epsilon_matches_spec exProblem (3, 5) 5 9 (1 / 10) (3, 1)
    (by with_unfolding_all decide)

/-- **C4** — `estimate_epsilon` returns 0 for a problem with no jobs (the
empty k-distance curve), and `get_max_curvature` returns 0 on an empty
slice. -/
theorem estimate_epsilon_empty_eq_zero :
    (∀ (problem : Problem) (nth_neighbor : Nat), problem.jobs = [] →
      estimate_epsilon problem nth_neighbor = 0) ∧
    get_max_curvature [] = 0 := by
  constructor
  · intro problem nth_neighbor h
    unfold estimate_epsilon
    rw [get_average_costs_eq, h]
    rfl
  · rfl

/-- Witness for C4: the concrete zero-job problem evaluates to epsilon 0. -/
theorem estimate_epsilon_empty_eq_zero_witness :
    estimate_epsilon emptyProblem 2 = 0 ∧ get_max_curvature [] = 0 :=
  ⟨estimate_epsilon_empty_eq_zero.1 emptyProblem 2 rfl,
    estimate_epsilon_empty_eq_zero.2⟩

/-- **C5** — epsilon estimation is deterministic: it is a pure function of
the problem data (jobs, profiles, neighbor costs) and the `nth_neighbor`
argument; its signature admits no random source, so two calls on problems
with identical data return the same value. -/
theorem estimate_epsilon_deterministic :
    ∀ (p q : Problem) (nth_neighbor : Nat),
      p.fleet = q.fleet → p.jobs = q.jobs → p.neighbors = q.neighbors →
      estimate_epsilon p nth_neighbor = estimate_epsilon q nth_neighbor := by
  intro p q nth_neighbor h1 h2 h3
  obtain ⟨pf, pj, pn⟩ := p
  obtain ⟨qf, qj, qn⟩ := q
  simp only at h1 h2 h3
  subst h1; subst h2; subst h3
  rfl

/-- Witness for C5: two calls on the ten-job instance agree. -/
theorem estimate_epsilon_deterministic_witness :
    estimate_epsilon exProblem 2 = estimate_epsilon exProblem 2 :=
  estimate_epsilon_deterministic exProblem exProblem 2 rfl rfl rfl

set_option maxRecDepth 20000 in
/-- **C6** — the claim says no hidden global generator influences
`ClusterRemoval::run`; in fact `run` shuffles the cluster list with
`rand::thread_rng()`, the thread-local global generator.  On the ten-job
instance (two clusters) the embedded run consumes exactly one draw from the
hidden stream — whatever that stream is — advancing its position from 0 to
1, while the injected source `lowHighRandom` answers the in-contract
parameter draws. -/
theorem clusterRemoval_run_consumes_thread_rng :
    ∀ s : Nat → Nat,
      (ClusterRemoval.run (ClusterRemoval.new exProblem (3, 5) 0 16 (1 / 10)) ⟨0⟩
        ⟨exProblem, lowHighRandom, ⟨[], []⟩⟩ ⟨s, 0⟩).2.pos = 1 := by
  intro s
  with_unfolding_all rfl

/-- A configuration with non-positive sizes: both the initial population
size and the population size are 0. -/
def zeroSizesConfig : Config :=
  { population := some
      { initial_methods := none
        initial_size := some 0
        population_size := some 0
        offspring_size := none
        elite_size := none }
    mutation := none
    termination := none
    logging := none }

/-- **C7 counterexample** — the claim says `create_builder_from_config`
returns an error for every malformed or self-contradictory configuration,
naming non-positive sizes as an example; on a configuration whose sizes are
all zero it returns `Ok`. -/
theorem create_builder_accepts_nonpositive_sizes :
    exceptIsOk (create_builder_from_config emptyProblem zeroSizesConfig) = true := rfl

/-- **C7 (amended)** — `create_builder_from_config` performs no semantic
validation and returns `Ok` for every parsed configuration (non-positive
sizes included); `create_builder_from_config_file` returns an error exactly
when deserialization fails (e.g. an unknown mutation type), before any
search begins. -/
theorem create_builder_from_config_never_errs :
    (∀ (problem : Problem) (config : Config),
      exceptIsOk (create_builder_from_config problem config) = true) ∧
    (∀ (problem : Problem) (reader : Except String Config),
      exceptIsOk (create_builder_from_config_file problem reader)
        = exceptIsOk reader) := by
  constructor
  · intro problem config
    rfl
  · intro problem reader
    cases reader with
    | ok config => rfl
    | error err => rfl

/-- **C8** — when the logging configuration is absent or enabled,
`configure_from_logging` leaves the builder untouched (so a fresh builder
keeps the default logger: logging enabled by default); when present with
`enabled = false` it installs the no-op sink, which emits nothing. -/
theorem configure_from_logging_spec :
    ∀ (b : Builder) (problem : Problem) (s : String),
      configure_from_logging b none = b ∧
      configure_from_logging b (some ⟨true⟩) = b ∧
      configure_from_logging b (some ⟨false⟩) = b.with_logger noopLogger ∧
      (configure_from_logging (Builder.new problem) none).logger = defaultLogger ∧
      noopLogger s = [] := by
  intro b problem s
  exact ⟨rfl, rfl, rfl, rfl, rfl⟩

/-- **C9 counterexample** — the claim says the params table is non-empty for
every `cluster_size` range; at `cluster_size.start = usize::MAX` the source
computes `min + 1` in `usize`, which wraps to 0 under release semantics
(and panics in a debug build), so `min..max` is the empty range and the
table is empty. -/
theorem clusterRemoval_new_params_empty_at_usize_max :
    (ClusterRemoval.new exProblem (2 ^ 64 - 1, 5) 0 16 (1 / 10)).params = [] := by
  with_unfolding_all rfl

/-- **C9 (amended)** — for every problem and every `cluster_size` range
whose start is below `usize::MAX` (so that the source's `min + 1` does not
overflow), the params table of `ClusterRemoval::new` is non-empty, its
`min_pts` components are exactly the consecutive integers of the clamped
range `max(start, 3) .. max(min(end, #jobs), max(start, 3) + 1)`, and every
`min_pts` is at least 3; nothing is ever rejected.  (At
`start = usize::MAX` the wrapped `min + 1` yields an empty table instead,
see the counterexample.) -/
theorem clusterRemoval_new_params_invariants :
    ∀ (problem : Problem) (cluster_size : Nat × Nat) (min_jobs max_jobs : Nat)
      (threshold : ℚ),
      cluster_size.1 < 2 ^ 64 - 1 →
      (ClusterRemoval.new problem cluster_size min_jobs max_jobs threshold).params ≠ [] ∧
      (ClusterRemoval.new problem cluster_size min_jobs max_jobs threshold).params.map
          Prod.fst
        = rustRange (Nat.max cluster_size.1 3)
            (Nat.max (Nat.min cluster_size.2 problem.jobs.length)
              (Nat.max cluster_size.1 3 + 1)) ∧
      ∀ pr ∈ (ClusterRemoval.new problem cluster_size min_jobs max_jobs
          threshold).params, 3 ≤ pr.1 := by
  intro problem cluster_size min_jobs max_jobs threshold hstart
  have hwrap : usize_add (Nat.max cluster_size.1 3) 1 = Nat.max cluster_size.1 3 + 1 := by
    unfold usize_add
    apply Nat.mod_eq_of_lt
    rcases Nat.le_total cluster_size.1 3 with h | h
    · have hm : Nat.max cluster_size.1 3 = 3 := Nat.max_eq_right h
      rw [hm]
      norm_num
    · have hm : Nat.max cluster_size.1 3 = cluster_size.1 := Nat.max_eq_left h
      rw [hm]
      omega
  refine ⟨?_, ?_, ?_⟩
  · simp only [ClusterRemoval.new, hwrap, ne_eq, List.map_eq_nil_iff, rustRange]
    intro h
    have hlen := congrArg List.length h
    rw [List.length_range', List.length_nil] at hlen
    have h1 : Nat.max cluster_size.1 3 + 1
        ≤ Nat.max (Nat.min cluster_size.2 problem.jobs.length)
          (Nat.max cluster_size.1 3 + 1) := Nat.le_max_right _ _
    omega
  · simp only [ClusterRemoval.new, hwrap, List.map_map]
    have : (Prod.fst ∘ fun min_pts =>
        ((min_pts : Nat), estimate_epsilon problem (min_pts - 1))) = id := by
      funext m
      rfl
    rw [this, List.map_id]
  · intro pr hpr
    simp only [ClusterRemoval.new, List.mem_map] at hpr
    obtain ⟨min_pts, hmem, rfl⟩ := hpr
    simp only [rustRange, List.mem_range'_1] at hmem
    exact le_trans (Nat.le_max_right cluster_size.1 3) hmem.1

set_option maxRecDepth 20000 in
/-- Witness for C9: a reversed range `5..2` (start well below `usize::MAX`)
on the ten-job problem is clamped to the single entry `(5, 100)`, which is
in the table and has `min_pts ≥ 3`. -/
theorem clusterRemoval_new_params_invariants_witness :
    (ClusterRemoval.new exProblem (5, 2) 0 16 (1 / 10)).params ≠ [] ∧
      3 ≤ ((5 : Nat), (100 : ℚ)).1 :=
  ⟨(clusterRemoval_new_params_invariants exProblem (5, 2) 0 16 (1 / 10)
      (by norm_num)).1,
    (clusterRemoval_new_params_invariants exProblem (5, 2) 0 16 (1 / 10)
      (by norm_num)).2.2 (5, 100) (by with_unfolding_all decide)⟩

/-- **C10** — `get_average_costs` returns exactly one entry per job; each
entry is the profile-averaged nth-neighbor cost, and a job with no
`(nth_neighbor + 1)`-th neighbor under some profile (neighbor list of
length at most `nth_neighbor`) contributes cost 0 for that profile. -/
theorem get_average_costs_shape :
    ∀ (problem : Problem) (nth_neighbor : Nat),
      (get_average_costs problem nth_neighbor).length = problem.jobs.length ∧
      get_average_costs problem nth_neighbor = problem.jobs.map (fun job =>
        (problem.fleet.profiles.map
          (fun profile => nth_neighbor_cost problem nth_neighbor profile job)).sum
          / (problem.fleet.profiles.length : ℚ)) ∧
      ∀ (profile : Profile) (job : Job),
        (problem.neighbors profile job).length ≤ nth_neighbor →
        nth_neighbor_cost problem nth_neighbor profile job = 0 := by
  intro problem nth_neighbor
  refine ⟨?_, get_average_costs_eq problem nth_neighbor, ?_⟩
  · rw [get_average_costs_eq, List.length_map]
  · intro profile job h
    unfold nth_neighbor_cost
    rw [List.drop_eq_nil_of_le h]

/-- Witness for C10: job 0 of the ten-job instance has 9 neighbors, so with
`nth_neighbor = 20` its cost is 0, and the cost list has one entry per
job. -/
theorem get_average_costs_shape_witness :
    (get_average_costs exProblem 20).length = exProblem.jobs.length ∧
      nth_neighbor_cost exProblem 20 0 0 = 0 :=
  ⟨(get_average_costs_shape exProblem 20).1,
    (get_average_costs_shape exProblem 20).2.2 0 0 (by decide)⟩


